import Mathlib

/-
Verification development for the tictactui repository (Go, bubbletea SSH
tic-tac-toe). The definitions below are a shallow embedding of the game
logic in src/main.go: the shared GameSession structure, the per-view model,
the pure board engine (checkWinner, isDraw), the key and tick handlers of
model.Update, and the session-manager pairing logic of handleSSHSession.
Go strings stay strings; the 3x3 board becomes a total function on Fin 3;
the int cursor and coord fields, which the program confines to 0..2, become
Fin 3; mutation becomes explicit state passing.
-/

namespace TicTacTUI

/-- Game constants from src/main.go. The symbol of the first player. -/
def PlayerX : String := "X"

/-- The symbol of the second player. -/
def PlayerO : String := "O"

/-- The winner value recorded for a drawn game. -/
def Draw : String := "draw"

/-- The empty cell value (Go empty string). -/
def Empty : String := ""

/-- Board dimension constant. -/
def BoardSize : Nat := 3

/-- Disconnect grace period, in milliseconds (Go: 5 * time.Second). -/
def DisconnectTimeout : Nat := 5000

/-- Ticker period, in milliseconds (Go: 100ms). -/
def TickerInterval : Nat := 100

/-- The coord struct of src/main.go (row, col fields, always in 0..2). -/
structure coord where
  row : Fin 3
  col : Fin 3
deriving DecidableEq, Repr

/-- A 3x3 board of Go-string cells ([][]string in the source, 3x3 always). -/
abbrev Board := Fin 3 → Fin 3 → String

/-- createEmptyBoard from src/main.go: every cell Empty. -/
def createEmptyBoard : Board := fun _ _ => Empty

/-- Embedding of the Go assignment board[y][x] = v. -/
def setCell (b : Board) (y x : Fin 3) (v : String) : Board :=
  fun i j => if i = y ∧ j = x then v else b i j

/-- checkWinner from src/main.go, the row / column / diagonal loops unrolled
in source order: rows y = 0,1,2, then columns x = 0,1,2, then the
top-left to bottom-right diagonal, then the top-right to bottom-left
diagonal. Returns the three coordinates of the first line found. -/
def checkWinner (board : Board) (player : String) : Option (List coord) :=
  if board 0 0 == player && board 0 1 == player && board 0 2 == player then
    some [⟨0, 0⟩, ⟨0, 1⟩, ⟨0, 2⟩]
  else if board 1 0 == player && board 1 1 == player && board 1 2 == player then
    some [⟨1, 0⟩, ⟨1, 1⟩, ⟨1, 2⟩]
  else if board 2 0 == player && board 2 1 == player && board 2 2 == player then
    some [⟨2, 0⟩, ⟨2, 1⟩, ⟨2, 2⟩]
  else if board 0 0 == player && board 1 0 == player && board 2 0 == player then
    some [⟨0, 0⟩, ⟨1, 0⟩, ⟨2, 0⟩]
  else if board 0 1 == player && board 1 1 == player && board 2 1 == player then
    some [⟨0, 1⟩, ⟨1, 1⟩, ⟨2, 1⟩]
  else if board 0 2 == player && board 1 2 == player && board 2 2 == player then
    some [⟨0, 2⟩, ⟨1, 2⟩, ⟨2, 2⟩]
  else if board 0 0 == player && board 1 1 == player && board 2 2 == player then
    some [⟨0, 0⟩, ⟨1, 1⟩, ⟨2, 2⟩]
  else if board 0 2 == player && board 1 1 == player && board 2 0 == player then
    some [⟨0, 2⟩, ⟨1, 1⟩, ⟨2, 0⟩]
  else none

/-- isDraw from src/main.go: false as soon as some cell is empty, true when
every cell is occupied. -/
def isDraw (board : Board) : Bool :=
  (List.finRange 3).all fun i => (List.finRange 3).all fun j => !(board i j == Empty)

/-- The shared GameSession struct of src/main.go (multiplayer state). -/
structure GameSession where
  Board : Board
  CurrentPlayer : Nat
  Winner : String
  WinningCells : List coord
  PlayerCount : Nat
  PlayerDisconnected : Bool
  RestartRequested : Bool

/-- The per-view model struct of src/main.go. The gameSession pointer is
passed separately to the handlers below, which embed the multiplayer
(non-nil gameSession) branches of model.Update. -/
structure Model where
  board : Board
  cursorX : Fin 3
  cursorY : Fin 3
  currentPlayer : String
  winner : String
  winningCells : List coord
  playerSymbol : String
  isMyTurn : Bool
  waitingForPlayer : Bool
  disconnectTimer : Nat

/-- initialModel from src/main.go: currentPlayer X, empty board, all other
fields at their Go zero values. -/
def initialModel : Model :=
  { board := createEmptyBoard
    cursorX := 0
    cursorY := 0
    currentPlayer := PlayerX
    winner := Empty
    winningCells := []
    playerSymbol := Empty
    isMyTurn := false
    waitingForPlayer := false
    disconnectTimer := 0 }

/-- The commands a handler returns to the bubbletea runtime: keep ticking,
clear the screen, or quit the control loop. -/
inductive TCmd where
  | tick
  | clearScreen
  | quit
  | keyNone
deriving DecidableEq, Repr

/-- The local half of model.resetGame: board, players, winner, cells,
cursor, turn flag and disconnect timer back to their initial values. -/
def resetGameLocal (m : Model) : Model :=
  { m with
    board := createEmptyBoard
    currentPlayer := PlayerX
    winner := Empty
    winningCells := []
    cursorX := 0
    cursorY := 0
    isMyTurn := m.playerSymbol == PlayerX
    disconnectTimer := 0 }

/-- The shared half of model.resetGame: the session fields written under the
session lock. PlayerCount is not touched. -/
def resetGameSession (g : GameSession) : GameSession :=
  { g with
    Board := createEmptyBoard
    CurrentPlayer := 0
    Winner := Empty
    WinningCells := []
    PlayerDisconnected := false
    RestartRequested := false }

/-- The symbol whose turn a CurrentPlayer slot denotes (0 is X, else O),
as computed in the tick handler of model.Update. -/
def turnSymbol (cp : Nat) : String :=
  if cp = 0 then PlayerX else PlayerO

/-- The tickMsg branch of model.Update (multiplayer): copy the session
fields into the local model, recompute isMyTurn and waitingForPlayer; if a
restart was requested return ClearScreen; else if the opponent disconnected
start the local countdown at the first observing tick and quit once more
than DisconnectTimeout has elapsed since that first observation; otherwise
schedule the next tick. The session itself is never written by a tick. -/
def tickUpdate (m : Model) (g : GameSession) (now : Nat) : Model × TCmd :=
  let m1 : Model :=
    { m with
      board := g.Board
      currentPlayer := turnSymbol g.CurrentPlayer
      winner := g.Winner
      winningCells := g.WinningCells
      isMyTurn := m.playerSymbol == turnSymbol g.CurrentPlayer
      waitingForPlayer := g.PlayerCount < 2 }
  if g.RestartRequested then
    ({ m1 with winner := g.Winner, winningCells := g.WinningCells }, TCmd.clearScreen)
  else if g.PlayerDisconnected then
    if m1.disconnectTimer = 0 then
      ({ m1 with disconnectTimer := now }, TCmd.tick)
    else if DisconnectTimeout < now - m1.disconnectTimer then
      (m1, TCmd.quit)
    else
      (m1, TCmd.tick)
  else
    (m1, TCmd.tick)

/-- The lock-guarded session mutation of the enter / space branch of
model.Update: write the symbol into the shared board, evaluate checkWinner
for that symbol; on a win record Winner and WinningCells, else on a full
board record Draw, else toggle CurrentPlayer. -/
def sessionPlace (g : GameSession) (sym : String) (y x : Fin 3) : GameSession :=
  let b' := setCell g.Board y x sym
  match checkWinner b' sym with
  | some cells =>
      { g with Board := b', Winner := sym, WinningCells := cells }
  | none =>
      if isDraw b' then
        { g with Board := b', Winner := Draw }
      else
        { g with Board := b', CurrentPlayer := 1 - g.CurrentPlayer }

/-- The enter / space branch of model.Update in multiplayer mode: reject if
the local winner field is set, or the local isMyTurn flag is false, or the
local board cell under the cursor is occupied; otherwise write the fixed
playerSymbol into the local board and run the lock-guarded session
mutation. Note that all three rejection checks read the local projection,
while the write and evaluation act on the shared session. -/
def placeMark (m : Model) (g : GameSession) : Model × GameSession :=
  if m.winner != Empty then (m, g)
  else if !m.isMyTurn then (m, g)
  else if m.board m.cursorY m.cursorX != Empty then (m, g)
  else
    ({ m with board := setCell m.board m.cursorY m.cursorX m.playerSymbol },
     sessionPlace g m.playerSymbol m.cursorY m.cursorX)

/-- The r key branch of model.Update in multiplayer mode: run resetGame
(local fields and, under the session lock, the shared fields), then set
RestartRequested to true for the other player, and clear the screen. -/
def restartKey (m : Model) (g : GameSession) : Model × GameSession × TCmd :=
  let m' := resetGameLocal m
  let g' := resetGameSession g
  (m', { g' with RestartRequested := true }, TCmd.clearScreen)

/-- The up / k key branch of model.Update. -/
def moveUp (m : Model) : Model :=
  if h : 0 < (m.cursorY : Nat) then
    { m with cursorY := ⟨(m.cursorY : Nat) - 1, by omega⟩ }
  else m

/-- The down / j key branch of model.Update; the inner clamp of cursorX
against the row length never fires because every row has length 3. -/
def moveDown (m : Model) : Model :=
  if h : (m.cursorY : Nat) < 2 then
    let m1 := { m with cursorY := ⟨(m.cursorY : Nat) + 1, by omega⟩ }
    if (m1.cursorX : Nat) ≥ 3 then { m1 with cursorX := ⟨2, by omega⟩ } else m1
  else m

/-- The right / l key branch of model.Update. -/
def moveRight (m : Model) : Model :=
  if h : (m.cursorX : Nat) < 2 then
    { m with cursorX := ⟨(m.cursorX : Nat) + 1, by omega⟩ }
  else m

/-- The left / h key branch of model.Update. -/
def moveLeft (m : Model) : Model :=
  if h : 0 < (m.cursorX : Nat) then
    { m with cursorX := ⟨(m.cursorX : Nat) - 1, by omega⟩ }
  else m

/-- The session created for a first arriving player in handleSSHSession:
empty board, CurrentPlayer 0, PlayerCount 1, all other fields at their Go
zero values. -/
def freshSession : GameSession :=
  { Board := createEmptyBoard
    CurrentPlayer := 0
    Winner := Empty
    WinningCells := []
    PlayerCount := 1
    PlayerDisconnected := false
    RestartRequested := false }

/-- The SessionManager of src/main.go, with the Go heap made explicit:
sessions live at Nat addresses, nextId is the next fresh address, and
waitingSession holds the address of the single waiting session, if any. -/
structure SessionManager where
  nextId : Nat
  sessions : Nat → GameSession
  waitingSession : Option Nat

/-- The process-wide initial session manager (waitingSession nil). The heap
placeholder at unallocated addresses is freshSession. -/
def initialManager : SessionManager :=
  { nextId := 0, sessions := fun _ => freshSession, waitingSession := none }

/-- The pairing logic of handleSSHSession, run under the manager lock: with
an empty waiting slot, allocate a fresh session with PlayerCount 1, store
its address in the slot and hand out symbol X; with an occupied slot, set
that session PlayerCount to 2, clear the slot and hand out symbol O.
Returns the new manager state, the address of the session the caller was
bound to, and the symbol assigned to the caller. -/
def pairConnection (sm : SessionManager) : SessionManager × Nat × String :=
  match sm.waitingSession with
  | none =>
      let id := sm.nextId
      ({ nextId := id + 1
         sessions := fun k => if k = id then freshSession else sm.sessions k
         waitingSession := some id },
       id, PlayerX)
  | some id =>
      ({ sm with
         sessions := fun k =>
           if k = id then { sm.sessions k with PlayerCount := 2 } else sm.sessions k
         waitingSession := none },
       id, PlayerO)

/-- Which of the two participants of a session acts. -/
inductive Participant where
  | PX
  | PO
deriving DecidableEq, Repr

/-- The fixed symbol of a participant, as assigned at pairing time. -/
def participantSymbol : Participant → String
  | Participant.PX => PlayerX
  | Participant.PO => PlayerO

/-- A complete two-player multiplayer configuration: the two local view
models and the shared session. -/
structure Sys where
  mx : Model
  mo : Model
  g : GameSession

/-- The model handed to the first player in handleSSHSession: symbol X,
isMyTurn true, waiting for the second player. -/
def firstPlayerModel : Model :=
  { initialModel with
    playerSymbol := PlayerX
    isMyTurn := true
    waitingForPlayer := true }

/-- The model handed to the second player in handleSSHSession: symbol O,
isMyTurn false, not waiting. -/
def secondPlayerModel : Model :=
  { initialModel with
    playerSymbol := PlayerO
    isMyTurn := false
    waitingForPlayer := false }

/-- The configuration right after both participants have been paired into
one session: the shared session has PlayerCount 2 and is otherwise fresh. -/
def sysInit : Sys :=
  { mx := firstPlayerModel
    mo := secondPlayerModel
    g := { freshSession with PlayerCount := 2 } }

/-- One observable event of the two-player system: a reconciliation tick of
one view (at a wall-clock time in milliseconds), a cursor key, the place
key, the restart key, or the transport disconnect notification that sets
the shared disconnect flag. -/
inductive Action where
  | tick (p : Participant) (now : Nat)
  | up (p : Participant)
  | down (p : Participant)
  | left (p : Participant)
  | right (p : Participant)
  | place (p : Participant)
  | restart (p : Participant)
  | disconnect
deriving DecidableEq, Repr

/-- Read the acting participant model out of a configuration. -/
def Sys.model (s : Sys) : Participant → Model
  | Participant.PX => s.mx
  | Participant.PO => s.mo

/-- Replace the acting participant model in a configuration. -/
def Sys.setModel (s : Sys) : Participant → Model → Sys
  | Participant.PX, m => { s with mx := m }
  | Participant.PO, m => { s with mo := m }

/-- Apply one event to a configuration. Each branch invokes the handler
embedded above for the acting view, against the shared session. -/
def applyAction (s : Sys) : Action → Sys
  | Action.tick p now => s.setModel p (tickUpdate (s.model p) s.g now).1
  | Action.up p => s.setModel p (moveUp (s.model p))
  | Action.down p => s.setModel p (moveDown (s.model p))
  | Action.left p => s.setModel p (moveLeft (s.model p))
  | Action.right p => s.setModel p (moveRight (s.model p))
  | Action.place p =>
      let r := placeMark (s.model p) s.g
      { s.setModel p r.1 with g := r.2 }
  | Action.restart p =>
      let r := restartKey (s.model p) s.g
      { s.setModel p r.1 with g := r.2.1 }
  | Action.disconnect => { s with g := { s.g with PlayerDisconnected := true } }

/-- Run a sequence of events from a configuration. -/
def runActions (s : Sys) (acts : List Action) : Sys :=
  acts.foldl applyAction s

/-- The eight winning lines in the scan order stated by the specification:
rows top to bottom, then columns left to right, then the top-left to
bottom-right diagonal, then the top-right to bottom-left diagonal. -/
def scanLines : List (List coord) :=
  [ [⟨0, 0⟩, ⟨0, 1⟩, ⟨0, 2⟩],
    [⟨1, 0⟩, ⟨1, 1⟩, ⟨1, 2⟩],
    [⟨2, 0⟩, ⟨2, 1⟩, ⟨2, 2⟩],
    [⟨0, 0⟩, ⟨1, 0⟩, ⟨2, 0⟩],
    [⟨0, 1⟩, ⟨1, 1⟩, ⟨2, 1⟩],
    [⟨0, 2⟩, ⟨1, 2⟩, ⟨2, 2⟩],
    [⟨0, 0⟩, ⟨1, 1⟩, ⟨2, 2⟩],
    [⟨0, 2⟩, ⟨1, 1⟩, ⟨2, 0⟩] ]

/-- A line is uniformly marked with a given value when all three of its
cells hold that value (specification wording: some row, column or diagonal
is uniformly one role). -/
def lineAll (b : Board) (p : String) : List coord → Bool
  | [c1, c2, c3] => b c1.row c1.col == p && b c2.row c2.col == p && b c3.row c3.col == p
  | _ => false

/-- Iterated reconciliation ticks of one surviving view against a session
that no longer changes: run the tick handler at each successive time and
report the time of the tick at which the view quits, if any. -/
def runTicks (m : Model) (g : GameSession) : List Nat → Option Nat
  | [] => none
  | t :: ts =>
      match tickUpdate m g t with
      | (_, TCmd.quit) => some t
      | (m', _) => runTicks m' g ts

/-- A cell value that can legitimately appear on a board: empty or one of
the two fixed player symbols. -/
def goodCell (c : String) : Prop := c = Empty ∨ c = PlayerX ∨ c = PlayerO

/-- The inductive invariant of the two-player system: the participant
symbols are the ones fixed at pairing time, and every cell of the shared
board and of both local projections holds Empty, X or O. -/
def Inv (s : Sys) : Prop :=
  s.mx.playerSymbol = PlayerX ∧ s.mo.playerSymbol = PlayerO ∧
  (∀ i j, goodCell (s.g.Board i j)) ∧
  (∀ i j, goodCell (s.mx.board i j)) ∧
  (∀ i j, goodCell (s.mo.board i j))

/-- Event trace in which the first player places at (0,0) and then, before
any reconciliation tick refreshes its stale isMyTurn flag, immediately
places again at (0,1). -/
def doubleMoveTrace : List Action :=
  [Action.place Participant.PX, Action.right Participant.PX, Action.place Participant.PX]

/-- Event trace in which the second player marks (0,0) and the first
player, whose local board copy is still the pre-tick snapshot in which
(0,0) is empty, then places on the same cell. -/
def overwriteTrace : List Action :=
  [Action.down Participant.PX, Action.right Participant.PX, Action.place Participant.PX,
   Action.tick Participant.PO 100, Action.place Participant.PO,
   Action.up Participant.PX, Action.left Participant.PX, Action.place Participant.PX]

/-- The prefix of overwriteTrace up to and including the second player
placing at (0,0). -/
def overwriteTracePrefix : List Action :=
  [Action.down Participant.PX, Action.right Participant.PX, Action.place Participant.PX,
   Action.tick Participant.PO 100, Action.place Participant.PO]

/-- Event trace in which the first player completes the main diagonal
(winning) while the second player, which last reconciled right after the
first placement and therefore still sees no winner, fills the six
remaining cells; the last of those placements finds no line for O and a
full board, so the session winner is overwritten from X to draw while
WinningCells keeps the stale X line. -/
def drawRaceTrace : List Action :=
  [Action.place Participant.PX, Action.tick Participant.PO 100,
   Action.down Participant.PX, Action.right Participant.PX, Action.place Participant.PX,
   Action.down Participant.PX, Action.right Participant.PX, Action.place Participant.PX,
   Action.right Participant.PO, Action.place Participant.PO,
   Action.right Participant.PO, Action.place Participant.PO,
   Action.down Participant.PO, Action.place Participant.PO,
   Action.left Participant.PO, Action.left Participant.PO, Action.place Participant.PO,
   Action.down Participant.PO, Action.place Participant.PO,
   Action.right Participant.PO, Action.place Participant.PO]

/-- The prefix of drawRaceTrace in which the first player has just
completed the main diagonal. -/
def drawRaceTracePrefix : List Action :=
  [Action.place Participant.PX, Action.tick Participant.PO 100,
   Action.down Participant.PX, Action.right Participant.PX, Action.place Participant.PX,
   Action.down Participant.PX, Action.right Participant.PX, Action.place Participant.PX]

/-- A session in which the game has already been decided in favor of the
first player (used as a concrete input for the restart theorems). -/
def decidedSession : GameSession :=
  { freshSession with
    PlayerCount := 2
    Winner := PlayerX
    WinningCells := [⟨0, 0⟩, ⟨0, 1⟩, ⟨0, 2⟩] }

/-- A fresh session with both participants bound. -/
def pairedSession : GameSession :=
  { freshSession with PlayerCount := 2 }

/-- A paired session whose other participant has disconnected. -/
def discSession : GameSession :=
  { freshSession with PlayerCount := 2, PlayerDisconnected := true }

/-- The first player view after its local winner projection has been set
(a state in which the view rejects placements). -/
def decidedModel : Model :=
  { firstPlayerModel with winner := PlayerX }

/-- Specification of the lock-guarded session mutation performed on an
accepted placement of symbol s at (y, x): the mark is written at the
placed cell; a found line stores the winner and that line; otherwise a
full board stores Draw, and Draw arises only when no line was found on
the same placement; otherwise the turn slot is toggled, which is the
other role whenever the placement was in turn; and isDraw holds exactly
when every cell is occupied. -/
def PlaceOutcomeSpec (g : GameSession) (s : String) (y x : Fin 3) : Prop :=
  ((sessionPlace g s y x).Board = setCell g.Board y x s) ∧
  ((sessionPlace g s y x).Board y x = s) ∧
  (∀ cells, checkWinner (setCell g.Board y x s) s = some cells →
      (sessionPlace g s y x).Winner = s ∧ (sessionPlace g s y x).WinningCells = cells) ∧
  (checkWinner (setCell g.Board y x s) s = none →
      isDraw (setCell g.Board y x s) = true →
      (sessionPlace g s y x).Winner = Draw ∧
      (sessionPlace g s y x).WinningCells = g.WinningCells) ∧
  ((sessionPlace g s y x).Winner = Draw → g.Winner ≠ Draw →
      checkWinner (setCell g.Board y x s) s = none ∧ isDraw (setCell g.Board y x s) = true) ∧
  (checkWinner (setCell g.Board y x s) s = none →
      isDraw (setCell g.Board y x s) = false →
      (sessionPlace g s y x).CurrentPlayer = 1 - g.CurrentPlayer ∧
      (sessionPlace g s y x).Winner = g.Winner ∧
      (sessionPlace g s y x).WinningCells = g.WinningCells) ∧
  (isDraw (setCell g.Board y x s) = true ↔ ∀ i j, setCell g.Board y x s i j ≠ Empty) ∧
  (s = turnSymbol g.CurrentPlayer →
      checkWinner (setCell g.Board y x s) s = none →
      isDraw (setCell g.Board y x s) = false →
      turnSymbol (sessionPlace g s y x).CurrentPlayer ≠ s)

/-- Specification of the pairing sequence of the session manager, with sm1
any manager state with an empty waiting slot, sm2 any state waiting on
session address i: a first call allocates a fresh one-participant session
and parks it, role First; a call on a waiting manager binds the second
participant to the very session at the waiting address, sets its count to
2, clears the slot and touches no other session, role Second; and the
following call allocates an entirely new session, role First, again
parked in the slot. -/
def PairSpec (sm1 sm2 : SessionManager) (i : Nat) : Prop :=
  (pairConnection sm1).2.2 = PlayerX ∧
  (pairConnection sm1).2.1 = sm1.nextId ∧
  (pairConnection sm1).1.sessions sm1.nextId = freshSession ∧
  freshSession.PlayerCount = 1 ∧
  (pairConnection sm1).1.waitingSession = some sm1.nextId ∧
  (∀ k, k ≠ sm1.nextId → (pairConnection sm1).1.sessions k = sm1.sessions k) ∧
  (pairConnection sm2).2.2 = PlayerO ∧
  (pairConnection sm2).2.1 = i ∧
  (pairConnection sm2).1.sessions i = { sm2.sessions i with PlayerCount := 2 } ∧
  ((pairConnection sm2).1.sessions i).PlayerCount = 2 ∧
  (pairConnection sm2).1.waitingSession = none ∧
  (∀ k, k ≠ i → (pairConnection sm2).1.sessions k = sm2.sessions k) ∧
  (pairConnection (pairConnection sm2).1).2.2 = PlayerX ∧
  (pairConnection (pairConnection sm2).1).2.1 = sm2.nextId ∧
  sm2.nextId ≠ i ∧
  (pairConnection (pairConnection sm2).1).1.waitingSession = some sm2.nextId

/-
Helper lemmas about the embedded operations. None of the claim theorems
below is referenced by any other declaration; shared reasoning lives here.
-/

/-- A written cell reads back the written value. -/
theorem setCell_self (b : Board) (y x : Fin 3) (v : String) :
    setCell b y x v y x = v := by
  simp [setCell]

/-- Any cell of an updated board is either the written value or the old
cell. -/
theorem setCell_cases (b : Board) (y x : Fin 3) (v : String) (i j : Fin 3) :
    setCell b y x v i j = v ∨ setCell b y x v i j = b i j := by
  by_cases h : i = y ∧ j = x <;> simp [setCell, h]

/-- isDraw decides whether every cell of the board is occupied. -/
theorem isDraw_iff (b : Board) : isDraw b = true ↔ ∀ i j, b i j ≠ Empty := by
  simp [isDraw, List.all_eq_true]

/-- checkWinner is exactly the first line of the specified scan order all
of whose cells hold the given symbol. -/
theorem checkWinner_eq_find (b : Board) (p : String) :
    checkWinner b p = scanLines.find? (lineAll b p) := by
  unfold checkWinner scanLines
  simp only [List.find?, lineAll]
  repeat' split
  all_goals simp_all

/-- A tick never changes the fixed participant symbol and always replaces
the local board with a copy of the shared one. -/
theorem tickUpdate_model (m : Model) (g : GameSession) (now : Nat) :
    (tickUpdate m g now).1.playerSymbol = m.playerSymbol ∧
    (tickUpdate m g now).1.board = g.Board := by
  simp only [tickUpdate]
  split_ifs <;> simp

/-- On a disconnected session with no restart pending, a tick whose timer
is already running quits exactly when more than the grace period has
elapsed since the recorded first observation. -/
theorem tickUpdate_disc_quit (m : Model) (g : GameSession) (now : Nat)
    (hd : g.PlayerDisconnected = true) (hr : g.RestartRequested = false)
    (hmne : m.disconnectTimer ≠ 0) (hq : DisconnectTimeout < now - m.disconnectTimer) :
    (tickUpdate m g now).2 = TCmd.quit := by
  simp [tickUpdate, hr, hd, hmne, hq]

/-- On a disconnected session with a running timer, a tick inside the grace
period keeps ticking and leaves the recorded first observation intact. -/
theorem tickUpdate_disc_cont (m : Model) (g : GameSession) (now : Nat)
    (hd : g.PlayerDisconnected = true) (hr : g.RestartRequested = false)
    (hmne : m.disconnectTimer ≠ 0) (hq : ¬ DisconnectTimeout < now - m.disconnectTimer) :
    (tickUpdate m g now).2 = TCmd.tick ∧
    (tickUpdate m g now).1.disconnectTimer = m.disconnectTimer := by
  simp [tickUpdate, hr, hd, hmne, hq]

/-- The first tick observing the disconnect records the current time and
does not quit. -/
theorem tickUpdate_disc_first (m : Model) (g : GameSession) (now : Nat)
    (hd : g.PlayerDisconnected = true) (hr : g.RestartRequested = false)
    (hm0 : m.disconnectTimer = 0) :
    (tickUpdate m g now).2 = TCmd.tick ∧
    (tickUpdate m g now).1.disconnectTimer = now := by
  simp [tickUpdate, hr, hd, hm0]

/-- Once the countdown is running from first observation f, the view quits
at the first tick time t with t - f beyond the grace period. -/
theorem runTicks_found (g : GameSession) (f : Nat)
    (hd : g.PlayerDisconnected = true) (hr : g.RestartRequested = false) (hf : f ≠ 0) :
    ∀ (ts : List Nat) (m : Model), m.disconnectTimer = f →
      runTicks m g ts = ts.find? fun t => decide (DisconnectTimeout < t - f) := by
  intro ts
  induction ts with
  | nil => intro m hm; rfl
  | cons t ts ih =>
      intro m hm
      have hmne : m.disconnectTimer ≠ 0 := by rw [hm]; exact hf
      by_cases hq : DisconnectTimeout < t - f
      · have h2 := tickUpdate_disc_quit m g t hd hr hmne (by rw [hm]; exact hq)
        rcases e : tickUpdate m g t with ⟨m1, c⟩
        rw [e] at h2
        simp only at h2
        simp [runTicks, e, h2, List.find?, hq]
      · have h2 := tickUpdate_disc_cont m g t hd hr hmne (by rw [hm]; exact hq)
        rcases e : tickUpdate m g t with ⟨m1, c⟩
        rw [e] at h2
        simp only at h2
        rcases h2 with ⟨hc, hm1⟩
        subst hc
        simp [runTicks, e, List.find?, hq, ih m1 (by rw [hm1, hm])]

/-- An accepted placement reduces to the local board write plus the
lock-guarded session mutation. -/
theorem placeMark_accepted (m : Model) (g : GameSession)
    (h1 : m.winner = Empty) (h2 : m.isMyTurn = true)
    (h3 : m.board m.cursorY m.cursorX = Empty) :
    placeMark m g =
      ({ m with board := setCell m.board m.cursorY m.cursorX m.playerSymbol },
       sessionPlace g m.playerSymbol m.cursorY m.cursorX) := by
  simp [placeMark, h1, h2, h3]

/-- The session mutation of an accepted placement satisfies the placement
specification for any symbol that is one of the two player symbols. -/
theorem sessionPlace_spec (g : GameSession) (s : String) (y x : Fin 3)
    (hs : s = PlayerX ∨ s = PlayerO) : PlaceOutcomeSpec g s y x := by
  have hsd : s ≠ Draw := by rcases hs with h | h <;> rw [h] <;> decide
  refine ⟨?_, ?_, ?_, ?_, ?_, ?_, isDraw_iff _, ?_⟩
  · unfold sessionPlace
    rcases h : checkWinner (setCell g.Board y x s) s with _ | cells <;> simp only [h] <;>
      (try split_ifs) <;> simp
  · unfold sessionPlace
    rcases h : checkWinner (setCell g.Board y x s) s with _ | cells <;> simp only [h] <;>
      (try split_ifs) <;> simp [setCell_self]
  · intro cells h
    simp [sessionPlace, h]
  · intro h hd
    simp [sessionPlace, h, hd]
  · intro hw hgw
    simp only [sessionPlace] at hw
    rcases h : checkWinner (setCell g.Board y x s) s with _ | cells
    · rw [h] at hw
      simp only at hw
      by_cases hd : isDraw (setCell g.Board y x s) = true
      · exact ⟨rfl, hd⟩
      · rw [if_neg hd] at hw
        simp only at hw
        exact absurd hw hgw
    · rw [h] at hw
      simp only at hw
      exact absurd hw hsd
  · intro h hd
    simp [sessionPlace, h, hd]
  · intro he h hd
    simp only [sessionPlace, h, hd]
    simp only [Bool.false_eq_true, if_false]
    rcases Nat.eq_zero_or_pos g.CurrentPlayer with h0 | h0
    · rw [he, h0]
      simp only [turnSymbol]
      decide
    · have h1 : 1 - g.CurrentPlayer = 0 := by omega
      have h2 : ¬ g.CurrentPlayer = 0 := by omega
      rw [he]
      simp only [turnSymbol, h1, h2, if_true, if_false]
      decide

/-- Cursor movement up changes neither the board nor the symbol. -/
theorem moveUp_frame (m : Model) :
    (moveUp m).board = m.board ∧ (moveUp m).playerSymbol = m.playerSymbol := by
  unfold moveUp
  split <;> simp

/-- Cursor movement down changes neither the board nor the symbol. -/
theorem moveDown_frame (m : Model) :
    (moveDown m).board = m.board ∧ (moveDown m).playerSymbol = m.playerSymbol := by
  simp only [moveDown]
  split_ifs <;> simp

/-- Cursor movement right changes neither the board nor the symbol. -/
theorem moveRight_frame (m : Model) :
    (moveRight m).board = m.board ∧ (moveRight m).playerSymbol = m.playerSymbol := by
  unfold moveRight
  split <;> simp

/-- Cursor movement left changes neither the board nor the symbol. -/
theorem moveLeft_frame (m : Model) :
    (moveLeft m).board = m.board ∧ (moveLeft m).playerSymbol = m.playerSymbol := by
  unfold moveLeft
  split <;> simp

/-- A placement keeps the fixed participant symbol, and every cell it
touches, on either board, receives exactly that symbol. -/
theorem placeMark_frame (m : Model) (g : GameSession) (i j : Fin 3) :
    (placeMark m g).1.playerSymbol = m.playerSymbol ∧
    ((placeMark m g).2.Board i j = g.Board i j ∨ (placeMark m g).2.Board i j = m.playerSymbol) ∧
    ((placeMark m g).1.board i j = m.board i j ∨ (placeMark m g).1.board i j = m.playerSymbol) := by
  simp only [placeMark, sessionPlace]
  split_ifs <;> try simp
  all_goals (
    rcases h : checkWinner (setCell g.Board m.cursorY m.cursorX m.playerSymbol) m.playerSymbol with _ | cells <;>
    simp only [h] <;>
    (try split_ifs) <;>
    (try simp) <;>
    rcases setCell_cases g.Board m.cursorY m.cursorX m.playerSymbol i j with h1 | h1 <;>
    rcases setCell_cases m.board m.cursorY m.cursorX m.playerSymbol i j with h2 | h2 <;>
    simp [h1, h2])

/-- The restart key keeps the fixed participant symbol and empties both
boards. -/
theorem restartKey_frame (m : Model) (g : GameSession) :
    (restartKey m g).1.playerSymbol = m.playerSymbol ∧
    (restartKey m g).1.board = createEmptyBoard ∧
    (restartKey m g).2.1.Board = createEmptyBoard := by
  simp [restartKey, resetGameLocal, resetGameSession]

/-- The empty cell value is a legitimate cell value. -/
theorem goodCell_empty : goodCell Empty := Or.inl rfl

/-- Every event of the two-player system preserves the symbol and board
invariant. -/
theorem inv_step (s : Sys) (a : Action) (h : Inv s) : Inv (applyAction s a) := by
  obtain ⟨hx, ho, hg, hbx, hbo⟩ := h
  cases a with
  | tick p now =>
      cases p <;>
        exact ⟨by simp [applyAction, Sys.setModel, Sys.model, (tickUpdate_model _ _ _).1, hx],
               by simp [applyAction, Sys.setModel, Sys.model, (tickUpdate_model _ _ _).1, ho],
               by simp [applyAction, Sys.setModel, Sys.model]; exact hg,
               by simp [applyAction, Sys.setModel, Sys.model, (tickUpdate_model _ _ _).2, hg, hbx],
               by simp [applyAction, Sys.setModel, Sys.model, (tickUpdate_model _ _ _).2, hg, hbo]⟩
  | up p =>
      cases p <;>
        exact ⟨by simp [applyAction, Sys.setModel, Sys.model, (moveUp_frame _).2, hx],
               by simp [applyAction, Sys.setModel, Sys.model, (moveUp_frame _).2, ho],
               by simp [applyAction, Sys.setModel, Sys.model]; exact hg,
               by simp [applyAction, Sys.setModel, Sys.model, (moveUp_frame _).1, hbx],
               by simp [applyAction, Sys.setModel, Sys.model, (moveUp_frame _).1, hbo]⟩
  | down p =>
      cases p <;>
        exact ⟨by simp [applyAction, Sys.setModel, Sys.model, (moveDown_frame _).2, hx],
               by simp [applyAction, Sys.setModel, Sys.model, (moveDown_frame _).2, ho],
               by simp [applyAction, Sys.setModel, Sys.model]; exact hg,
               by simp [applyAction, Sys.setModel, Sys.model, (moveDown_frame _).1, hbx],
               by simp [applyAction, Sys.setModel, Sys.model, (moveDown_frame _).1, hbo]⟩
  | left p =>
      cases p <;>
        exact ⟨by simp [applyAction, Sys.setModel, Sys.model, (moveLeft_frame _).2, hx],
               by simp [applyAction, Sys.setModel, Sys.model, (moveLeft_frame _).2, ho],
               by simp [applyAction, Sys.setModel, Sys.model]; exact hg,
               by simp [applyAction, Sys.setModel, Sys.model, (moveLeft_frame _).1, hbx],
               by simp [applyAction, Sys.setModel, Sys.model, (moveLeft_frame _).1, hbo]⟩
  | right p =>
      cases p <;>
        exact ⟨by simp [applyAction, Sys.setModel, Sys.model, (moveRight_frame _).2, hx],
               by simp [applyAction, Sys.setModel, Sys.model, (moveRight_frame _).2, ho],
               by simp [applyAction, Sys.setModel, Sys.model]; exact hg,
               by simp [applyAction, Sys.setModel, Sys.model, (moveRight_frame _).1, hbx],
               by simp [applyAction, Sys.setModel, Sys.model, (moveRight_frame _).1, hbo]⟩
  | place p =>
      cases p
      · refine ⟨?_, ?_, ?_, ?_, ?_⟩
        · simp [applyAction, Sys.setModel, Sys.model, (placeMark_frame _ _ 0 0).1, hx]
        · simp [applyAction, Sys.setModel, Sys.model, ho]
        · intro i j
          have hc := (placeMark_frame s.mx s.g i j).2.1
          simp only [applyAction, Sys.setModel, Sys.model]
          rcases hc with h1 | h1 <;> rw [h1]
          · exact hg i j
          · rw [hx]; exact Or.inr (Or.inl rfl)
        · intro i j
          have hc := (placeMark_frame s.mx s.g i j).2.2
          simp only [applyAction, Sys.setModel, Sys.model]
          rcases hc with h1 | h1 <;> rw [h1]
          · exact hbx i j
          · rw [hx]; exact Or.inr (Or.inl rfl)
        · intro i j
          simp only [applyAction, Sys.setModel, Sys.model]
          exact hbo i j
      · refine ⟨?_, ?_, ?_, ?_, ?_⟩
        · simp [applyAction, Sys.setModel, Sys.model, hx]
        · simp [applyAction, Sys.setModel, Sys.model, (placeMark_frame _ _ 0 0).1, ho]
        · intro i j
          have hc := (placeMark_frame s.mo s.g i j).2.1
          simp only [applyAction, Sys.setModel, Sys.model]
          rcases hc with h1 | h1 <;> rw [h1]
          · exact hg i j
          · rw [ho]; exact Or.inr (Or.inr rfl)
        · intro i j
          simp only [applyAction, Sys.setModel, Sys.model]
          exact hbx i j
        · intro i j
          have hc := (placeMark_frame s.mo s.g i j).2.2
          simp only [applyAction, Sys.setModel, Sys.model]
          rcases hc with h1 | h1 <;> rw [h1]
          · exact hbo i j
          · rw [ho]; exact Or.inr (Or.inr rfl)
  | restart p =>
      cases p <;>
        exact ⟨by simp [applyAction, Sys.setModel, Sys.model, (restartKey_frame _ _).1, hx, ho],
               by simp [applyAction, Sys.setModel, Sys.model, (restartKey_frame _ _).1, hx, ho],
               by intro i j; simp [applyAction, Sys.setModel, Sys.model, (restartKey_frame _ _).2.2, createEmptyBoard, goodCell_empty],
               by intro i j; simp [applyAction, Sys.setModel, Sys.model, (restartKey_frame _ _).2.1, createEmptyBoard, goodCell_empty] <;> exact hbx i j,
               by intro i j; simp [applyAction, Sys.setModel, Sys.model, (restartKey_frame _ _).2.1, createEmptyBoard, goodCell_empty] <;> exact hbo i j⟩
  | disconnect =>
      exact ⟨hx, ho, hg, hbx, hbo⟩

/-- The freshly paired configuration satisfies the invariant. -/
theorem inv_init : Inv sysInit := by
  refine ⟨rfl, rfl, ?_, ?_, ?_⟩ <;> intro i j <;> exact goodCell_empty

/-- The invariant holds after any event sequence from an invariant state. -/
theorem inv_run : ∀ (acts : List Action) (s : Sys), Inv s → Inv (runActions s acts) := by
  intro acts
  induction acts with
  | nil => intro s h; exact h
  | cons a acts ih => intro s h; exact ih _ (inv_step s a h)

/-- Claim C1. The claim states that the turn-legality and emptiness checks
of a placement consult the current session state inside one critical
section, so an attempt by a role differing from the session turn is
rejected as NotYourTurn. The code instead checks the stale local
projection: in the reachable configuration after the first player places
once, the session turn symbol differs from that player's symbol, the
target cell is still empty in the session, and yet the same player's
immediate second attempt is applied and writes its symbol into the
session board. -/
theorem claim1_stale_turn_check :
    turnSymbol (runActions sysInit [Action.place Participant.PX]).g.CurrentPlayer ≠
      (runActions sysInit [Action.place Participant.PX]).mx.playerSymbol ∧
    (runActions sysInit [Action.place Participant.PX]).g.Board 0 1 = Empty ∧
    (runActions sysInit doubleMoveTrace).g.Board 0 1 =
      (runActions sysInit [Action.place Participant.PX]).mx.playerSymbol := by
  decide

/-- Claim C2, counterexample. The claim states that a restart request
clears restartRequested so that afterwards the flag reads false, and that
the reconciliation step performs the reset. In the code the r key handler
itself performs the reset (the prior Won outcome is indeed cleared) and
then sets the flag, which no tick ever clears: after the request the flag
reads true. -/
theorem claim2_restart_flag_counterexample :
    (restartKey firstPlayerModel decidedSession).2.1.Winner = Empty ∧
    (restartKey firstPlayerModel decidedSession).2.1.RestartRequested = true := by
  decide

/-- Claim C2, amended. A restart request itself resets board, turn,
winner, winning line and disconnect flag of both the local view and the
shared session to their initial values (regardless of prior outcome,
PlayerCount untouched) and then sets restartRequested to true for the
other view; the reconciliation tick of a session with the flag set
returns a screen clear and, having no write access to the session, never
clears the flag. -/
theorem claim2_restart_behavior (m : Model) (g : GameSession) (now : Nat) :
    (restartKey m g).2.1.Board = createEmptyBoard ∧
    (restartKey m g).2.1.CurrentPlayer = 0 ∧
    (restartKey m g).2.1.Winner = Empty ∧
    (restartKey m g).2.1.WinningCells = [] ∧
    (restartKey m g).2.1.PlayerDisconnected = false ∧
    (restartKey m g).2.1.RestartRequested = true ∧
    (restartKey m g).2.1.PlayerCount = g.PlayerCount ∧
    (restartKey m g).1.board = createEmptyBoard ∧
    (restartKey m g).1.currentPlayer = PlayerX ∧
    (restartKey m g).1.winner = Empty ∧
    (restartKey m g).1.winningCells = [] ∧
    (restartKey m g).1.disconnectTimer = 0 ∧
    (tickUpdate m { g with RestartRequested := true } now).2 = TCmd.clearScreen := by
  refine ⟨rfl, rfl, rfl, rfl, rfl, rfl, rfl, rfl, rfl, rfl, rfl, rfl, ?_⟩
  simp [tickUpdate]

/-- Claim C3. For every board and symbol, checkWinner equals the first
line of the fixed scan order (rows top to bottom, then columns left to
right, then the two diagonals) all of whose cells hold that symbol; it
returns a line exactly when some scan line is uniformly that symbol, and
any returned value is such a uniformly marked scan line. It is a plain
function of its two arguments. -/
theorem claim3_win_scan_order (b : Board) (p : String) :
    checkWinner b p = scanLines.find? (lineAll b p) ∧
    ((checkWinner b p).isSome ↔ ∃ l ∈ scanLines, lineAll b p l = true) ∧
    (∀ cells, checkWinner b p = some cells → lineAll b p cells = true ∧ cells ∈ scanLines) := by
  refine ⟨checkWinner_eq_find b p, ?_, ?_⟩
  · rw [checkWinner_eq_find b p, List.find?_isSome]
  · intro cells hc
    rw [checkWinner_eq_find b p] at hc
    exact ⟨List.find?_some hc, List.mem_of_find?_eq_some hc⟩

/-- Claim C4, counterexample. The claim states that on every Applied
placement that neither wins nor fills the board, the turn advances to the
role that did not just move. Under the stale local checks, the first
player's immediate second placement is applied (the mark lands at (0,1))
from a session whose turn slot is 1, and the toggle puts the turn slot
back to 0: the turn lands on the role that just moved. -/
theorem claim4_turn_advance_counterexample :
    (runActions sysInit [Action.place Participant.PX]).g.CurrentPlayer = 1 ∧
    (runActions sysInit doubleMoveTrace).g.Board 0 1 = PlayerX ∧
    (runActions sysInit doubleMoveTrace).g.Winner = Empty ∧
    isDraw (runActions sysInit doubleMoveTrace).g.Board = false ∧
    (runActions sysInit doubleMoveTrace).g.CurrentPlayer = 0 := by
  decide

/-- Claim C4, amended. An accepted placement performs exactly the
lock-guarded session mutation, and that mutation satisfies the placement
specification: mark written at the placed cell; a found line stores
Winner and the line; otherwise a full board stores Drawn, and Drawn only
arises on a placement that found no line; otherwise the turn slot is
toggled, which is the role that did not just move whenever the placement
was in turn with the session; and isFull (isDraw) holds exactly when
every cell is occupied. -/
theorem claim4_applied_placement (m : Model) (g : GameSession) (s : String) (y x : Fin 3)
    (h1 : m.winner = Empty) (h2 : m.isMyTurn = true)
    (h3 : m.board m.cursorY m.cursorX = Empty)
    (hs : s = PlayerX ∨ s = PlayerO) :
    (placeMark m g).2 = sessionPlace g m.playerSymbol m.cursorY m.cursorX ∧
    PlaceOutcomeSpec g s y x := by
  refine ⟨?_, sessionPlace_spec g s y x hs⟩
  rw [placeMark_accepted m g h1 h2 h3]

/-- Claim C4, witness: the amended theorem applied to the first player
placing at the origin of a fresh paired session. -/
theorem claim4_applied_placement_witness :
    (placeMark firstPlayerModel pairedSession).2 =
      sessionPlace pairedSession firstPlayerModel.playerSymbol
        firstPlayerModel.cursorY firstPlayerModel.cursorX ∧
    PlaceOutcomeSpec pairedSession PlayerX 0 0 :=
  claim4_applied_placement firstPlayerModel pairedSession PlayerX 0 0 rfl rfl rfl (Or.inl rfl)

/-- Claim C5. A placement attempt rejected by any of the three checks
(outcome already decided, not the view's turn, target cell occupied)
returns the model and session entirely unchanged; no error is produced,
the pair is simply returned as it was. -/
theorem claim5_rejection_unchanged (m : Model) (g : GameSession)
    (h : m.winner ≠ Empty ∨ m.isMyTurn = false ∨ m.board m.cursorY m.cursorX ≠ Empty) :
    placeMark m g = (m, g) := by
  rcases h with h | h | h
  · simp [placeMark, h]
  · simp [placeMark, h]
  · unfold placeMark
    split_ifs <;> simp_all

/-- Claim C5, witness: a view whose winner projection is set leaves a
fresh paired session untouched. -/
theorem claim5_rejection_unchanged_witness :
    placeMark decidedModel pairedSession = (decidedModel, pairedSession) :=
  claim5_rejection_unchanged decidedModel pairedSession (Or.inl (by decide))

/-- Claim C6. Pairing: a call on an empty waiting slot allocates a fresh
session with participant count 1, parks it in the slot and returns role
First; the immediately following call returns role Second bound to the
very session parked in the slot, raises its count to 2, clears the slot
and touches no other session; the next call allocates an entirely new
session (a fresh address) with role First. The slot holds at most one
session by construction, and a session that has left the slot is never
modified by any later pairing call. -/
theorem claim6_pairing (sm1 sm2 : SessionManager) (i : Nat)
    (h1 : sm1.waitingSession = none) (h2 : sm2.waitingSession = some i)
    (h3 : i < sm2.nextId) : PairSpec sm1 sm2 i := by
  have e1 : pairConnection sm1 =
      ({ nextId := sm1.nextId + 1
         sessions := fun k => if k = sm1.nextId then freshSession else sm1.sessions k
         waitingSession := some sm1.nextId }, sm1.nextId, PlayerX) := by
    unfold pairConnection
    rw [h1]
  have e2 : pairConnection sm2 =
      ({ sm2 with
         sessions := fun k =>
           if k = i then { sm2.sessions k with PlayerCount := 2 } else sm2.sessions k
         waitingSession := none }, i, PlayerO) := by
    unfold pairConnection
    rw [h2]
  refine ⟨by rw [e1], by rw [e1], by rw [e1]; simp, rfl, by rw [e1], ?_,
    by rw [e2], by rw [e2], by rw [e2]; simp, by rw [e2]; simp, by rw [e2], ?_,
    by rw [e2]; rfl, by rw [e2]; rfl, by omega, by rw [e2]; rfl⟩
  · intro k hk
    rw [e1]
    simp [hk]
  · intro k hk
    rw [e2]
    simp [hk]

/-- Claim C6, witness: the pairing specification at the initial manager
and at the manager state right after the first call. -/
theorem claim6_pairing_witness :
    PairSpec initialManager (pairConnection initialManager).1 0 :=
  claim6_pairing initialManager (pairConnection initialManager).1 0 rfl rfl (by decide)

/-- Claim C7. On a disconnected session with no restart pending, the first
tick that observes the disconnect records its own time as the start of
the countdown and does not quit, however long ago the disconnect actually
happened; and the subsequent ticks quit exactly at the first tick time t
with t minus that first observation beyond the five second grace period,
never earlier. -/
theorem claim7_disconnect_grace (m : Model) (g : GameSession) (f : Nat) (ts : List Nat)
    (hd : g.PlayerDisconnected = true) (hr : g.RestartRequested = false)
    (hm0 : m.disconnectTimer = 0) (hf : f ≠ 0) :
    ((tickUpdate m g f).1.disconnectTimer = f ∧ (tickUpdate m g f).2 = TCmd.tick) ∧
    runTicks m g (f :: ts) = ts.find? fun t => decide (DisconnectTimeout < t - f) := by
  have hfirst := tickUpdate_disc_first m g f hd hr hm0
  refine ⟨⟨hfirst.2, hfirst.1⟩, ?_⟩
  rcases e : tickUpdate m g f with ⟨m1, c⟩
  have hc : c = TCmd.tick := by rw [e] at hfirst; exact hfirst.1
  have hm1 : m1.disconnectTimer = f := by
    have := hfirst.2
    rw [e] at this
    exact this
  subst hc
  simp [runTicks, e, runTicks_found g f hd hr hf ts m1 hm1]

/-- Claim C7, witness: the surviving second player view observes the
disconnect first at time 100 and quits at tick time 5101, the first tick
more than 5000 ms past the first observation. -/
theorem claim7_disconnect_grace_witness :
    ((tickUpdate secondPlayerModel discSession 100).1.disconnectTimer = 100 ∧
     (tickUpdate secondPlayerModel discSession 100).2 = TCmd.tick) ∧
    runTicks secondPlayerModel discSession (100 :: [2000, 5100, 5101, 5200]) =
      [2000, 5100, 5101, 5200].find? fun t => decide (DisconnectTimeout < t - 100) :=
  claim7_disconnect_grace secondPlayerModel discSession 100 [2000, 5100, 5101, 5200]
    rfl rfl rfl (by decide)

/-- Claim C8. The claim states that a cell once set is never overwritten
and that every placement writes only to a cell that is empty in the
authoritative board. In the reachable configuration in which the second
player has marked (0,0) but the first player has not reconciled since,
the first player's placement at (0,0) passes the emptiness check on its
stale local copy and overwrites the O mark in the session board with X. -/
theorem claim8_overwrite :
    (runActions sysInit overwriteTracePrefix).g.Board 0 0 = PlayerO ∧
    (runActions sysInit overwriteTrace).g.Board 0 0 = PlayerX := by
  decide

/-- Claim C9. The claim states that WinningCells is non-empty exactly when
the outcome is Won, and empty on a Drawn outcome. In the reachable
configuration in which the first player has won the main diagonal and the
second player then fills the six remaining cells without reconciling, the
final placement finds no line for O and a full board, overwriting Winner
from X to draw while WinningCells keeps the stale X line: a Drawn outcome
with a non-empty winning line. -/
theorem claim9_draw_keeps_line :
    (runActions sysInit drawRaceTracePrefix).g.Winner = PlayerX ∧
    (runActions sysInit drawRaceTracePrefix).g.WinningCells =
      [⟨0, 0⟩, ⟨1, 1⟩, ⟨2, 2⟩] ∧
    (runActions sysInit drawRaceTrace).g.Winner = Draw ∧
    (runActions sysInit drawRaceTrace).g.WinningCells = [⟨0, 0⟩, ⟨1, 1⟩, ⟨2, 2⟩] ∧
    (runActions sysInit drawRaceTrace).g.WinningCells ≠ [] := by
  decide

/-- Claim C10. In every configuration reachable from the paired initial
configuration, the participant symbols remain the ones fixed at pairing
(first X, second O), every cell of the shared board holds Empty, X or O,
and any cell changed by a placement of either participant receives
exactly that participant's own fixed symbol, whatever the session turn
slot holds. -/
theorem claim10_fixed_symbols (acts : List Action) :
    ((runActions sysInit acts).mx.playerSymbol = PlayerX ∧
     (runActions sysInit acts).mo.playerSymbol = PlayerO) ∧
    (∀ i j, goodCell ((runActions sysInit acts).g.Board i j)) ∧
    (∀ p i j,
        (applyAction (runActions sysInit acts) (Action.place p)).g.Board i j =
          (runActions sysInit acts).g.Board i j ∨
        (applyAction (runActions sysInit acts) (Action.place p)).g.Board i j =
          participantSymbol p) := by
  obtain ⟨hx, ho, hg, hbx, hbo⟩ := inv_run acts sysInit inv_init
  refine ⟨⟨hx, ho⟩, hg, ?_⟩
  intro p i j
  cases p
  · have hc := (placeMark_frame (runActions sysInit acts).mx (runActions sysInit acts).g i j).2.1
    simp only [applyAction, Sys.setModel, Sys.model]
    rcases hc with h1 | h1 <;> rw [h1]
    · exact Or.inl rfl
    · rw [hx]
      exact Or.inr rfl
  · have hc := (placeMark_frame (runActions sysInit acts).mo (runActions sysInit acts).g i j).2.1
    simp only [applyAction, Sys.setModel, Sys.model]
    rcases hc with h1 | h1 <;> rw [h1]
    · exact Or.inl rfl
    · rw [ho]
      exact Or.inr rfl

end TicTacTUI
